import Mathlib

/-!
Verification of the Image-Superimposor batch compositor
(`image_create.py`).

The script overlays subject images on background images at random
scale and position and records one bounding-box record per generated
image.  The embedding below mirrors the core logic of the script:

* Python float expressions are modelled under exact rational
  arithmetic.  `int()` truncates toward zero, so
  `int((v / 100) * w)` on integers `v`, `w` is `Int.tdiv (v * w) 100`
  (`insetAmt`), and `int(bkgd_h * scale)` on non-negative values is a
  floor, i.e. natural division (`scaledH`, `scaledW`).  The rational
  reference forms (`ratScaledH`, `ratScaledW`) are defined separately
  and proved equal to the natural-division forms.
* `random.randint(lo, hi)` is modelled by `randintN lo hi r` where
  `r` is an arbitrary seed; every value of the inclusive range is
  reached and no other.  `random.randint(0, n)` with `n < 0` raises
  `ValueError`; `placeOnBackground` returns `none` in that case.
* `Image.save` outcomes are an oracle `ok : triple → Bool` passed to
  the driver loop `runBatch`; a failed save skips the variation,
  while a failed placement aborts the whole run (the
  `placeOnBackground` call sits outside the `try` block in `main`).
-/

/-- Models the Python expression `int((v / 100) * w)` on integers
`v`, `w` under exact arithmetic: truncation toward zero of
`v * w / 100`. -/
def insetAmt (v w : ℤ) : ℤ :=
  Int.tdiv (v * w) 100

/-- Python truthiness of an optional integer (`None` and `0` are
falsy), as used in `if insets[X]:` and the inset sanitization. -/
def truthy : Option ℤ → Bool
  | none => false
  | some v => v != 0

/-- The integer value of an optional inset (only read under a
`truthy` guard, mirroring the script). -/
def insetVal : Option ℤ → ℤ
  | none => 0
  | some v => v

/-- The four optional inset percentages, in the order
`(top, right, bottom, left)` used by the script. -/
structure Insets where
  top : Option ℤ
  right : Option ℤ
  bottom : Option ℤ
  left : Option ℤ
deriving DecidableEq

/-- Module-level inset sanitization: mirrors
`if args.inset_x and (args.inset_x > 99 or args.inset_x < 1):` which
replaces the value by `None` and logs a warning.  The returned `Bool`
records whether the warning fired. -/
def sanitizeInset : Option ℤ → Option ℤ × Bool
  | none => (none, false)
  | some v => if v ≠ 0 ∧ (99 < v ∨ v < 1) then (none, true) else (some v, false)

/-- Model of `random.randint(lo, hi)` on a non-empty range: the draw
is determined by an arbitrary seed `r` and always lies in
`[lo, hi]`. -/
def randintN (lo hi r : ℕ) : ℕ :=
  lo + r % (hi - lo + 1)

/-- `SCALE_MIN` from the script. -/
def SCALE_MIN : ℕ := 5

/-- `SCALE_MAX` from the script. -/
def SCALE_MAX : ℕ := 80

/-- `random.randint(SCALE_MIN, SCALE_MAX)` in `scaleToBackground`:
the percent scale drawn for a variation. -/
def scalePct (r : ℕ) : ℕ :=
  randintN SCALE_MIN SCALE_MAX r

/-- `subj_h = int(bkgd_h * scale)` with `scale = pct / 100`, under
exact arithmetic (floor of a non-negative value). -/
def scaledH (bkgdH pct : ℕ) : ℕ :=
  bkgdH * pct / 100

/-- `subj_w = int(subj_w * (bkgd_h * scale) / subj_h)` with
`scale = pct / 100`, under exact arithmetic. -/
def scaledW (subjW subjH bkgdH pct : ℕ) : ℕ :=
  subjW * (bkgdH * pct) / (100 * subjH)

/-- The resized height expression written with rational arithmetic
and floor, exactly as the source computes it with floats:
`int(bkgd_h * (pct / 100))`. -/
def ratScaledH (bkgdH pct : ℕ) : ℕ :=
  Nat.floor ((bkgdH : ℚ) * ((pct : ℚ) / 100))

/-- The resized width expression written with rational arithmetic
and floor, exactly as the source computes it with floats:
`int(subj_w * (bkgd_h * (pct / 100)) / subj_h)`. -/
def ratScaledW (subjW subjH bkgdH pct : ℕ) : ℕ :=
  Nat.floor ((subjW : ℚ) * ((bkgdH : ℚ) * ((pct : ℚ) / 100)) / (subjH : ℚ))

/-- One inset application to a dimension, mirroring
`if insets[X]: subj_w -= int((insets[X] / 100) * subj_w)`. -/
def applyInsetDim (p : Option ℤ) (w : ℤ) : ℤ :=
  if truthy p then w - insetAmt (insetVal p) w else w

/-- Annotated width computed by `scaleToBackground`: the right inset
is applied first, then the left inset against the already-shrunk
width. -/
def scaleAnnW (w : ℤ) (ins : Insets) : ℤ :=
  applyInsetDim ins.left (applyInsetDim ins.right w)

/-- Annotated height computed by `scaleToBackground`: the top inset
is applied first, then the bottom inset against the already-shrunk
height. -/
def scaleAnnH (h : ℤ) (ins : Insets) : ℤ :=
  applyInsetDim ins.bottom (applyInsetDim ins.top h)

/-- `scaleToBackground`: returns the resized subject dimensions and
the annotated (inset-adjusted) width and height it stores in the
annotation record. -/
def scaleToBackground (subjW subjH bkgdH : ℕ) (ins : Insets) (r : ℕ) :
    (ℕ × ℕ) × (ℤ × ℤ) :=
  let pct := scalePct r
  let w := scaledW subjW subjH bkgdH pct
  let h := scaledH bkgdH pct
  ((w, h), (scaleAnnW (w : ℤ) ins, scaleAnnH (h : ℤ) ins))

/-- Result of `placeOnBackground`: the paste position returned to the
caller and the annotated coordinates stored in the record. -/
structure Placement where
  imageX : ℕ
  imageY : ℕ
  annX : ℤ
  annY : ℤ
deriving DecidableEq

/-- `placeOnBackground`: draws the paste position uniformly in
`[0, bkgd - subj]` per axis, then shifts the annotated x right by the
left inset and the annotated y up by the top inset.  Returns `none`
when a random range is negative (`random.randint` raises
`ValueError`). -/
def placeOnBackground (subjW subjH bkgdW bkgdH : ℕ) (ins : Insets)
    (rx ry : ℕ) : Option Placement :=
  if subjW ≤ bkgdW ∧ subjH ≤ bkgdH then
    let px := randintN 0 (bkgdW - subjW) rx
    let py := randintN 0 (bkgdH - subjH) ry
    let ax : ℤ := (px : ℤ) +
      (if truthy ins.left then insetAmt (insetVal ins.left) (subjW : ℤ) else 0)
    let ay : ℤ := (py : ℤ) -
      (if truthy ins.top then insetAmt (insetVal ins.top) (subjH : ℤ) else 0)
    some ⟨px, py, ax, ay⟩
  else
    none

/-- Python `s.rstrip(chars)`: removes the longest trailing run of
characters each of which occurs in `chars` (a character set, not a
suffix). -/
def pyRstrip (s chars : String) : String :=
  String.mk ((s.data.reverse.dropWhile (fun c => chars.data.contains c)).reverse)

/-- `file.split(".")[-1]`: the last dot-separated segment, i.e. the
characters after the last `'.'`, or the whole name when no dot
occurs. -/
def fileExt (s : String) : String :=
  String.mk ((s.data.reverse.takeWhile (fun c => c != '.')).reverse)

/-- `file = file.rstrip("." + ext)`: the base name the script keeps
for building the generated filename. -/
def fileBase (s : String) : String :=
  pyRstrip s (String.append "." (fileExt s))

/-- `args.output_fmt.lower() if args.output_fmt else bkgd_ext`: the
extension of the generated file (an empty override string is falsy
and also falls back to the extension of the background). -/
def genExt (outputFmt : Option String) (bkgdExt : String) : String :=
  match outputFmt with
  | none => bkgdExt
  | some f => if f.isEmpty then bkgdExt else f.toLower

/-- `".".join([subj_file, bkgd_file, str(i), gen_ext])`. -/
def genFilename (subjBase bkgdBase : String) (i : ℕ) (ext : String) : String :=
  String.intercalate "." [subjBase, bkgdBase, toString i, ext]

/-- The `coordinates` object of a record; fields start as `None` in
the template `ano_tmp` and are filled (or not) by the helpers. -/
structure Coords where
  x : Option ℤ
  y : Option ℤ
  width : Option ℤ
  height : Option ℤ
deriving DecidableEq

/-- One serialized record: label, the single coordinates object of
the `annotation` array, and the generated image filename. -/
structure AnoRecord where
  label : String
  coordinates : Coords
  imagefilename : Option String
deriving DecidableEq

/-- One iteration of the innermost loop of `main`, up to the save:
deep-copies the template, sets the filename, scales unless `no_scale`
is set (only `scaleToBackground` fills width/height), then places the
subject (filling x/y).  Returns the record together with the paste
position, or `none` when `placeOnBackground` raises. -/
def processVariation (label : String) (noScale : Bool) (ins : Insets)
    (outputFmt : Option String) (subjBase bkgdBase bkgdExt : String)
    (subjW subjH bkgdW bkgdH : ℕ) (i : ℕ) (rScale rx ry : ℕ) :
    Option (AnoRecord × ℕ × ℕ) :=
  let filename := genFilename subjBase bkgdBase i (genExt outputFmt bkgdExt)
  let sized : (ℕ × ℕ) × (Option ℤ × Option ℤ) :=
    if noScale then ((subjW, subjH), (none, none))
    else
      let r := scaleToBackground subjW subjH bkgdH ins rScale
      (r.1, (some r.2.1, some r.2.2))
  match placeOnBackground sized.1.1 sized.1.2 bkgdW bkgdH ins rx ry with
  | none => none
  | some p =>
      some (⟨label, ⟨some p.annX, some p.annY, sized.2.1, sized.2.2⟩, some filename⟩,
            p.imageX, p.imageY)

/-- The iteration space of the three nested loops in `main`:
(background index, subject index, variation index), in generation
order. -/
def triples (B S V : ℕ) : List (ℕ × ℕ × ℕ) :=
  (List.range B).flatMap (fun b =>
    (List.range S).flatMap (fun s =>
      (List.range V).map (fun i => (b, s, i))))

/-- One step of the driver loop: `none` aborts the run (an uncaught
exception), a failed save (`ok t = false`) skips the append, a
successful save appends the record. -/
def batchStep (step : ℕ × ℕ × ℕ → Option AnoRecord) (ok : ℕ × ℕ × ℕ → Bool)
    (acc : Option (List AnoRecord)) (t : ℕ × ℕ × ℕ) : Option (List AnoRecord) :=
  acc.bind (fun l => (step t).map (fun a => if ok t then l ++ [a] else l))

/-- The driver loop of `main`: iterates over every
(background, subject, variation) triple, producing the list of
accumulated records, or `none` when some iteration raised before the
`try` block. -/
def runBatch (step : ℕ × ℕ × ℕ → Option AnoRecord) (ok : ℕ × ℕ × ℕ → Bool)
    (B S V : ℕ) : Option (List AnoRecord) :=
  (triples B S V).foldl (batchStep step ok) (some [])

/-- The width/height shrink as the spec words it: an absent inset
performs no shrink, a present inset `v` subtracts
`int((v / 100) * w)` from the already-shrunk dimension. -/
def specShrink (w : ℤ) (p : Option ℤ) : ℤ :=
  match p with
  | none => w
  | some v => w - insetAmt v w

/-- A configured inset percentage is valid when it lies in `[1, 99]`;
an absent inset is vacuously fine. -/
def validInsetB (p : Option ℤ) : Bool :=
  match p with
  | none => true
  | some v => decide (1 ≤ v ∧ v ≤ 99)

/-- A concrete per-variation step (a 50 times 50 subject `cat.png`
on a 100 times 100 background `room.jpg`, scaling disabled, zero
seeds) used to exercise the driver loop. -/
def demoStep : ℕ × ℕ × ℕ → Option AnoRecord := fun t =>
  (processVariation "cat" true ⟨none, none, none, none⟩ none "cat" "room" "jpg"
      50 50 100 100 t.2.2 0 0 0).map Prod.fst

/-- A concrete save oracle: only the save of the first variation
succeeds. -/
def demoOk : ℕ × ℕ × ℕ → Bool := fun t => t.2.2 == 0

/-- The record produced by `demoStep` for variation 0. -/
def demoRec : AnoRecord :=
  ⟨"cat", ⟨some 0, some 0, none, none⟩, some "cat.room.0.jpg"⟩

lemma insetAmt_nonneg {v w : ℤ} (hv : 0 ≤ v) (hw : 0 ≤ w) :
    0 ≤ insetAmt v w :=
  Int.tdiv_nonneg (mul_nonneg hv hw) (by norm_num)

lemma insetAmt_eq_ediv {v w : ℤ} (hv : 0 ≤ v) (hw : 0 ≤ w) :
    insetAmt v w = v * w / 100 :=
  Int.tdiv_eq_ediv (mul_nonneg hv hw) (by norm_num)

lemma one_le_insetAmt {v w : ℤ} (hv : 0 ≤ v) (hw : 0 ≤ w) :
    1 ≤ insetAmt v w ↔ 100 ≤ v * w := by
  rw [insetAmt_eq_ediv hv hw, Int.le_ediv_iff_mul_le (by norm_num : (0:ℤ) < 100),
    one_mul]

lemma applyInsetDim_eq_specShrink (p : Option ℤ) (w : ℤ)
    (hp : validInsetB p = true) : applyInsetDim p w = specShrink w p := by
  cases p with
  | none => rfl
  | some v =>
    have h : 1 ≤ v ∧ v ≤ 99 := by simpa [validInsetB] using hp
    have hv : (v != 0) = true := by
      simp only [bne_iff_ne, ne_eq]
      omega
    simp [applyInsetDim, specShrink, truthy, insetVal, hv]









/-- C2: for every rendered subject box and every valid configured
subset of the four inset percentages, the annotated width is obtained
by shrinking by the right inset and then by the left inset, each
against the already-shrunk width, and the annotated height by the top
inset and then the bottom inset; an absent inset performs no
shrink. -/
theorem claimC2 (w h : ℤ) (ins : Insets)
    (ht : validInsetB ins.top = true) (hr : validInsetB ins.right = true)
    (hb : validInsetB ins.bottom = true) (hl : validInsetB ins.left = true) :
    scaleAnnW w ins = specShrink (specShrink w ins.right) ins.left ∧
    scaleAnnH h ins = specShrink (specShrink h ins.top) ins.bottom := by
  constructor
  · rw [scaleAnnW, applyInsetDim_eq_specShrink _ _ hr,
      applyInsetDim_eq_specShrink _ _ hl]
  · rw [scaleAnnH, applyInsetDim_eq_specShrink _ _ ht,
      applyInsetDim_eq_specShrink _ _ hb]

/-- Witness for C2 at a concrete box and inset configuration. -/
theorem claimC2_witness :
    (validInsetB (some 10) = true ∧ validInsetB (some 20) = true ∧
      validInsetB (none : Option ℤ) = true ∧ validInsetB (some 30) = true) ∧
    (scaleAnnW 200 ⟨some 10, some 20, none, some 30⟩ =
        specShrink (specShrink 200 (some 20)) (some 30) ∧
      scaleAnnH 100 ⟨some 10, some 20, none, some 30⟩ =
        specShrink (specShrink 100 (some 10)) none) :=
  ⟨⟨by decide, by decide, by decide, by decide⟩,
    claimC2 200 100 ⟨some 10, some 20, none, some 30⟩ (by decide) (by decide)
      (by decide) (by decide)⟩

/-- C8 counterexample: the inset 50 is valid, yet on a rendered box
of width 1 the adjusted width equals the unadjusted width, so it is
not strictly smaller. -/
theorem claimC8_counterexample :
    ((1:ℤ) ≤ 50 ∧ (50:ℤ) ≤ 99 ∧ (0:ℤ) ≤ 1) ∧
      applyInsetDim (some 50) 1 = 1 := by decide

/-- C8 (amended): for every valid inset percentage `p ∈ [1, 99]` the
adjusted dimension never exceeds the unadjusted one, and it is
strictly smaller exactly when `p * w ≥ 100` (that is, when
`int((p / 100) * w) ≥ 1`). -/
theorem claimC8_amended (p w : ℤ) (hp1 : 1 ≤ p) (hp2 : p ≤ 99) (hw : 0 ≤ w) :
    applyInsetDim (some p) w ≤ w ∧
      (applyInsetDim (some p) w < w ↔ 100 ≤ p * w) := by
  have hv : (p != 0) = true := by
    simp only [bne_iff_ne, ne_eq]
    omega
  have hp0 : (0:ℤ) ≤ p := by omega
  have hnn := insetAmt_nonneg hp0 hw
  have hone := one_le_insetAmt hp0 hw
  simp only [applyInsetDim, truthy, hv, if_true, insetVal]
  omega

/-- Witness for C8 (amended) at `p = 25`, `w = 8`. -/
theorem claimC8_amended_witness :
    ((1:ℤ) ≤ 25 ∧ (25:ℤ) ≤ 99 ∧ (0:ℤ) ≤ 8) ∧
      (applyInsetDim (some 25) 8 ≤ 8 ∧
        (applyInsetDim (some 25) 8 < 8 ↔ (100:ℤ) ≤ 25 * 8)) :=
  ⟨⟨by decide, by decide, by decide⟩,
    claimC8_amended 25 8 (by decide) (by decide) (by decide)⟩

/-- C9 counterexample: `0` is outside `[1, 99]`, yet the sanitization
keeps it (no warning fires) because `0` is falsy in Python. -/
theorem claimC9_counterexample :
    ((0:ℤ) < 1 ∨ 99 < (0:ℤ)) ∧ sanitizeInset (some 0) = (some 0, false) := by
  decide

/-- C9 (amended): a nonzero inset value outside `[1, 99]` is
discarded with a warning; the value `0` is kept without a warning;
in every out-of-range case the sanitized inset shrinks nothing and
shifts nothing, so the resulting bounding box equals the no-inset
box, and the run does not abort. -/
theorem claimC9_amended (v : ℤ) (hv : v < 1 ∨ 99 < v) :
    (v ≠ 0 → sanitizeInset (some v) = (none, true)) ∧
    (v = 0 → sanitizeInset (some v) = (some 0, false)) ∧
    (∀ w : ℤ, applyInsetDim (sanitizeInset (some v)).1 w = w) ∧
    (∀ subjW subjH bkgdW bkgdH rx ry : ℕ,
      placeOnBackground subjW subjH bkgdW bkgdH
          ⟨(sanitizeInset (some v)).1, (sanitizeInset (some v)).1,
            (sanitizeInset (some v)).1, (sanitizeInset (some v)).1⟩ rx ry =
        placeOnBackground subjW subjH bkgdW bkgdH
          ⟨none, none, none, none⟩ rx ry) := by
  by_cases h0 : v = 0
  · subst h0
    refine ⟨fun h => absurd rfl h, fun _ => by simp [sanitizeInset], ?_, ?_⟩
    · intro w
      simp [sanitizeInset, applyInsetDim, truthy]
    · intro subjW subjH bkgdW bkgdH rx ry
      simp [sanitizeInset, placeOnBackground, truthy]
  · have hs : sanitizeInset (some v) = (none, true) := by
      have hcond : v ≠ 0 ∧ (99 < v ∨ v < 1) := ⟨h0, by omega⟩
      simp only [sanitizeInset]
      rw [if_pos hcond]
    refine ⟨fun _ => hs, fun h => absurd h h0, ?_, ?_⟩
    · intro w
      rw [hs]
      simp [applyInsetDim, truthy]
    · intro subjW subjH bkgdW bkgdH rx ry
      rw [hs]

/-- Witness for C9 (amended) at the example value from the spec, `150`. -/
theorem claimC9_amended_witness :
    sanitizeInset (some 150) = (none, true) :=
  (claimC9_amended 150 (by decide)).1 (by decide)

/-- C10: an inset value of exactly `0` passes sanitization untouched
and without a warning, and behaves exactly like an absent inset: it
never shrinks the annotated width/height and never shifts the
annotated x/y. -/
theorem claimC10 :
    sanitizeInset (some 0) = (some 0, false) ∧
    (∀ w : ℤ, applyInsetDim (some 0) w = applyInsetDim none w) ∧
    (∀ w : ℤ, scaleAnnW w ⟨some 0, some 0, some 0, some 0⟩ =
      scaleAnnW w ⟨none, none, none, none⟩) ∧
    (∀ h : ℤ, scaleAnnH h ⟨some 0, some 0, some 0, some 0⟩ =
      scaleAnnH h ⟨none, none, none, none⟩) ∧
    (∀ subjW subjH bkgdW bkgdH rx ry : ℕ,
      placeOnBackground subjW subjH bkgdW bkgdH
          ⟨some 0, some 0, some 0, some 0⟩ rx ry =
        placeOnBackground subjW subjH bkgdW bkgdH
          ⟨none, none, none, none⟩ rx ry) := by
  refine ⟨by decide, fun w => rfl, fun w => rfl, fun h => rfl,
    fun subjW subjH bkgdW bkgdH rx ry => rfl⟩

lemma randintN_zero_le (n r : ℕ) : randintN 0 n r ≤ n := by
  have h : r % (n + 1) < n + 1 := Nat.mod_lt r (by omega)
  simp only [randintN, Nat.sub_zero]
  omega

lemma batchFold_none (step : ℕ × ℕ × ℕ → Option AnoRecord)
    (ok : ℕ × ℕ × ℕ → Bool) :
    ∀ ts : List (ℕ × ℕ × ℕ), ts.foldl (batchStep step ok) none = none := by
  intro ts
  induction ts with
  | nil => rfl
  | cons t ts ih => exact ih

lemma batchFold_some (step : ℕ × ℕ × ℕ → Option AnoRecord)
    (ok : ℕ × ℕ × ℕ → Bool) :
    ∀ (ts : List (ℕ × ℕ × ℕ)) (l0 l : List AnoRecord),
      ts.foldl (batchStep step ok) (some l0) = some l →
      l = l0 ++ ts.filterMap (fun t => if ok t then step t else none) := by
  intro ts
  induction ts with
  | nil =>
    intro l0 l h
    simp only [List.foldl_nil, Option.some_inj] at h
    simp [h.symm]
  | cons t ts ih =>
    intro l0 l h
    simp only [List.foldl_cons] at h
    cases hstep : step t with
    | none =>
      rw [show batchStep step ok (some l0) t = none by
        simp [batchStep, hstep], batchFold_none] at h
      cases h
    | some a =>
      rw [show batchStep step ok (some l0) t =
          some (if ok t then l0 ++ [a] else l0) by
        simp [batchStep, hstep]] at h
      have := ih _ _ h
      cases hok : ok t with
      | true =>
        simp only [hok, if_true] at this ⊢
        rw [this, List.filterMap_cons]
        simp [hstep, hok]
      | false =>
        simp only [hok, if_false] at this ⊢
        rw [this, List.filterMap_cons]
        simp [hstep, hok]

lemma batchFold_abort (step : ℕ × ℕ × ℕ → Option AnoRecord)
    (ok : ℕ × ℕ × ℕ → Bool) :
    ∀ (ts : List (ℕ × ℕ × ℕ)) (l0 : List AnoRecord),
      (∃ t, t ∈ ts ∧ step t = none) →
      ts.foldl (batchStep step ok) (some l0) = none := by
  intro ts
  induction ts with
  | nil =>
    intro l0 h
    rcases h with ⟨t, ht, _⟩
    cases ht
  | cons t ts ih =>
    intro l0 h
    rcases h with ⟨u, hu, hnone⟩
    simp only [List.foldl_cons]
    rcases List.mem_cons.mp hu with heq | hmem
    · subst heq
      rw [show batchStep step ok (some l0) u = none by
        simp [batchStep, hnone]]
      exact batchFold_none step ok ts
    · cases hstep : step t with
      | none =>
        rw [show batchStep step ok (some l0) t = none by
          simp [batchStep, hstep]]
        exact batchFold_none step ok ts
      | some a =>
        rw [show batchStep step ok (some l0) t =
            some (if ok t then l0 ++ [a] else l0) by
          simp [batchStep, hstep]]
        exact ih _ ⟨u, hmem, hnone⟩

lemma triples_length (B S V : ℕ) : (triples B S V).length = B * S * V := by
  simp only [triples, List.length_flatMap, Function.comp_def, List.length_map,
    List.length_range, List.map_const', List.sum_replicate, smul_eq_mul]
  ring

/-- C4: when scaling is enabled the drawn percent lies in `[5, 80]`,
the resized height is `int(bkgd_h * pct / 100)` and the resized width
is `int(subj_w * (bkgd_h * pct / 100) / subj_h)` — the rational-floor
expressions (`ratScaledH`, `ratScaledW`) computed by the source agree
with the integer-division forms used in the pipeline, so the width
preserves the aspect ratio up to integer truncation. -/
theorem claimC4 (subjW subjH bkgdH r : ℕ) (hh : 0 < subjH) :
    (5 ≤ scalePct r ∧ scalePct r ≤ 80) ∧
    ratScaledH bkgdH (scalePct r) = scaledH bkgdH (scalePct r) ∧
    ratScaledW subjW subjH bkgdH (scalePct r) =
      scaledW subjW subjH bkgdH (scalePct r) := by
  refine ⟨?_, ?_, ?_⟩
  · have hm : r % 76 < 76 := Nat.mod_lt r (by norm_num)
    simp only [scalePct, randintN, SCALE_MIN, SCALE_MAX]
    omega
  · set pct := scalePct r
    have hcast : (bkgdH : ℚ) * ((pct : ℚ) / 100) =
        ((bkgdH * pct : ℕ) : ℚ) / ((100 : ℕ) : ℚ) := by
      push_cast
      ring
    rw [ratScaledH, hcast, Nat.floor_div_nat, Nat.floor_natCast, scaledH]
  · set pct := scalePct r
    have hcast : (subjW : ℚ) * ((bkgdH : ℚ) * ((pct : ℚ) / 100)) / (subjH : ℚ) =
        ((subjW * (bkgdH * pct) : ℕ) : ℚ) / ((100 * subjH : ℕ) : ℚ) := by
      push_cast
      ring
    rw [ratScaledW, hcast, Nat.floor_div_nat, Nat.floor_natCast, scaledW]

/-- Witness for C4 with a 30 times 20 subject on a background of
height 100 and seed 0 (percent 5). -/
theorem claimC4_witness :
    0 < 20 ∧
      ((5 ≤ scalePct 0 ∧ scalePct 0 ≤ 80) ∧
        ratScaledH 100 (scalePct 0) = scaledH 100 (scalePct 0) ∧
        ratScaledW 30 20 100 (scalePct 0) = scaledW 30 20 100 (scalePct 0)) :=
  ⟨by decide, claimC4 30 20 100 0 (by decide)⟩

/-- C7: `placeOnBackground` raises exactly when the subject exceeds
the background in some axis (the random range is negative); otherwise
the paste coordinates satisfy `x ≤ bkgd_w - subj_w` and
`y ≤ bkgd_h - subj_h`; and the error is unguarded: a raising
iteration turns the whole batch result into `none` (the run
terminates). -/
theorem claimC7 (subjW subjH bkgdW bkgdH : ℕ) (ins : Insets) (rx ry : ℕ) :
    (placeOnBackground subjW subjH bkgdW bkgdH ins rx ry = none ↔
      bkgdW < subjW ∨ bkgdH < subjH) ∧
    (∀ p, placeOnBackground subjW subjH bkgdW bkgdH ins rx ry = some p →
      p.imageX ≤ bkgdW - subjW ∧ p.imageY ≤ bkgdH - subjH) ∧
    (∀ (step : ℕ × ℕ × ℕ → Option AnoRecord) (ok : ℕ × ℕ × ℕ → Bool)
        (B S V : ℕ), (∃ t, t ∈ triples B S V ∧ step t = none) →
      runBatch step ok B S V = none) := by
  refine ⟨?_, ?_, ?_⟩
  · rw [placeOnBackground]
    split
    · rename_i h
      simp only [reduceCtorEq, false_iff]
      omega
    · rename_i h
      simp only [true_iff]
      omega
  · intro p hp
    rw [placeOnBackground] at hp
    split at hp
    · rename_i h
      cases hp
      exact ⟨randintN_zero_le _ rx, randintN_zero_le _ ry⟩
    · cases hp
  · intro step ok B S V h
    rw [runBatch]
    exact batchFold_abort step ok (triples B S V) [] h

/-- Witness for C7: a 5 times 5 subject cannot be placed on a 3 times
3 background. -/
theorem claimC7_witness :
    placeOnBackground 5 5 3 3 ⟨none, none, none, none⟩ 0 0 = none ↔
      3 < 5 ∨ 3 < 5 :=
  (claimC7 5 5 3 3 ⟨none, none, none, none⟩ 0 0).1

/-- C1 counterexample: subject 100 times 100 on background 100 times
100 with a left inset of 50: the only paste position is (0, 0), yet
the annotated x is 50, outside `[0, bkgd_w - subj_w] = [0, 0]`. -/
theorem claimC1_counterexample :
    placeOnBackground 100 100 100 100 ⟨none, none, none, some 50⟩ 0 0 =
      some ⟨0, 0, 50, 0⟩ ∧
    ¬((50:ℤ) ≤ (100:ℤ) - 100) := by decide

/-- C1 (amended): the paste coordinates always satisfy
`x ∈ [0, bkgd_w - subj_w]` and `y ∈ [0, bkgd_h - subj_h]`; the
annotated x is `position_x + int(left / 100 * subj_w)` and the
annotated y is `position_y - int(top / 100 * subj_h)`; when no left
or top inset is active the annotated coordinates satisfy the same
bounds, but an active left inset can push x above
`bkgd_w - subj_w` and an active top inset can push y below 0. -/
theorem claimC1_amended (subjW subjH bkgdW bkgdH rx ry : ℕ) (ins : Insets)
    (p : Placement)
    (hp : placeOnBackground subjW subjH bkgdW bkgdH ins rx ry = some p) :
    p.imageX ≤ bkgdW - subjW ∧ p.imageY ≤ bkgdH - subjH ∧
    p.annX = (p.imageX : ℤ) +
      (if truthy ins.left then insetAmt (insetVal ins.left) (subjW : ℤ) else 0) ∧
    p.annY = (p.imageY : ℤ) -
      (if truthy ins.top then insetAmt (insetVal ins.top) (subjH : ℤ) else 0) ∧
    (truthy ins.left = false → truthy ins.top = false →
      0 ≤ p.annX ∧ p.annX ≤ (bkgdW : ℤ) - (subjW : ℤ) ∧
      0 ≤ p.annY ∧ p.annY ≤ (bkgdH : ℤ) - (subjH : ℤ)) := by
  rw [placeOnBackground] at hp
  split at hp
  · rename_i h
    cases hp
    have hx := randintN_zero_le (bkgdW - subjW) rx
    have hy := randintN_zero_le (bkgdH - subjH) ry
    refine ⟨hx, hy, rfl, rfl, ?_⟩
    intro hl ht
    simp only [hl, ht, Bool.false_eq_true, if_false, add_zero, sub_zero]
    have h1 : subjW ≤ bkgdW := h.1
    have h2 : subjH ≤ bkgdH := h.2
    omega
  · cases hp

/-- Witness for C1 (amended): a 2 times 2 subject on a 10 times 10
background with no insets, seeds 3 and 4. -/
theorem claimC1_amended_witness :
    (placeOnBackground 2 2 10 10 ⟨none, none, none, none⟩ 3 4 =
      some ⟨3, 4, 3, 4⟩) ∧
    (Placement.imageX ⟨3, 4, 3, 4⟩ ≤ 10 - 2 ∧
      Placement.imageY ⟨3, 4, 3, 4⟩ ≤ 10 - 2 ∧
      Placement.annX ⟨3, 4, 3, 4⟩ = (3 : ℤ) +
        (if truthy none then insetAmt (insetVal none) (2 : ℤ) else 0) ∧
      Placement.annY ⟨3, 4, 3, 4⟩ = (4 : ℤ) -
        (if truthy none then insetAmt (insetVal none) (2 : ℤ) else 0) ∧
      (truthy (none : Option ℤ) = false → truthy (none : Option ℤ) = false →
        0 ≤ Placement.annX ⟨3, 4, 3, 4⟩ ∧
        Placement.annX ⟨3, 4, 3, 4⟩ ≤ (10 : ℤ) - 2 ∧
        0 ≤ Placement.annY ⟨3, 4, 3, 4⟩ ∧
        Placement.annY ⟨3, 4, 3, 4⟩ ≤ (10 : ℤ) - 2)) :=
  ⟨by decide,
    claimC1_amended 2 2 10 10 3 4 ⟨none, none, none, none⟩ ⟨3, 4, 3, 4⟩
      (by decide)⟩

/-- C3: the claim fails on the code — with the no-scale flag set only
`placeOnBackground` runs, so the width and height of the record stay
`None` (serialized as null, not integers); label and filename are
still set and there is exactly one record for the image. -/
theorem claimC3_bug :
    processVariation "cat" true ⟨none, none, none, none⟩ none "cat" "room" "jpg"
        50 50 100 100 0 0 0 0 =
      some (⟨"cat", ⟨some 0, some 0, none, none⟩, some "cat.room.0.jpg"⟩, 0, 0) ∧
    (processVariation "cat" true ⟨none, none, none, none⟩ none "cat" "room" "jpg"
        50 50 100 100 0 0 0 0).map
          (fun r => (r.1.coordinates.width, r.1.coordinates.height)) =
      some (none, none) := by decide

/-- C5: when the batch completes, the collected records are exactly
the step results of the triples whose save succeeded (an annotation
is appended iff the save succeeds; a failed save leaves the list
unchanged and iteration continues), so the final count is at most
backgrounds times subjects times variations. -/
theorem claimC5 (step : ℕ × ℕ × ℕ → Option AnoRecord) (ok : ℕ × ℕ × ℕ → Bool)
    (B S V : ℕ) (l : List AnoRecord)
    (h : runBatch step ok B S V = some l) :
    l = (triples B S V).filterMap (fun t => if ok t then step t else none) ∧
    l.length ≤ B * S * V := by
  have h1 := batchFold_some step ok (triples B S V) [] l h
  simp only [List.nil_append] at h1
  refine ⟨h1, ?_⟩
  rw [h1]
  calc (List.filterMap (fun t => if ok t then step t else none)
          (triples B S V)).length
      ≤ (triples B S V).length := List.length_filterMap_le _ _
    _ = B * S * V := triples_length B S V

/-- Witness for C5: one background, one subject, two variations, the
second save failing — one record results. -/
theorem claimC5_witness :
    (runBatch demoStep demoOk 1 1 2 = some [demoRec]) ∧
    ([demoRec] = (triples 1 1 2).filterMap
        (fun t => if demoOk t then demoStep t else none) ∧
      ([demoRec] : List AnoRecord).length ≤ 1 * 1 * 2) :=
  ⟨by decide, claimC5 demoStep demoOk 1 1 2 [demoRec] (by decide)⟩

/-- C6: the claim fails on the code — `rstrip("." + ext)` removes a
trailing character set, not the suffix, so subject `dog.png` gets
base `do`, which collides with subject `do.png`: both yield the same
generated filename for the same background and variation index.  The
example given in the claim, `cat.png` over `room.jpg` does produce
`cat.room.2.jpg`. -/
theorem claimC6_bug :
    fileBase "dog.png" = "do" ∧
    fileBase "do.png" = "do" ∧
    genFilename (fileBase "dog.png") (fileBase "room.jpg") 0
        (genExt none (fileExt "room.jpg")) =
      genFilename (fileBase "do.png") (fileBase "room.jpg") 0
        (genExt none (fileExt "room.jpg")) ∧
    genFilename (fileBase "cat.png") (fileBase "room.jpg") 2
        (genExt none (fileExt "room.jpg")) = "cat.room.2.jpg" := by decide
